import Mathlib

/-!
# Verification of the `hkid_ops` HKID library

Shallow embedding of the core of the `rust_hkid_ops` crate: the character
value mapper, the check-digit calculator (`hkid_check_digit.rs`), the prefix
classifier (`hkid_prefix.rs`), the symbol classifier (`hkid_symbol.rs`), the
validator (`hkid_validator.rs` / `hkid_ops.rs`) and the two generator
variants (`hkid_generator.rs` and `HKIDOps::generate_hkid` in `hkid_ops.rs`).

Strings are modelled as `List Char`; Rust character-range tests (`'A'..='Z'`
etc.) are modelled on `Char.toNat` code points. The anchored regular
expressions of the crate are fixed-shape character-class patterns, modelled
as executable Boolean/structural matchers (see the comments at each one).
The random source consumed by the generators is modelled as an explicit
`RandSource` record of outcomes, with a well-formedness predicate recording
exactly what the Rust RNG calls guarantee about those outcomes.
-/

namespace HkidOps

/-- `'A' <= c && c <= 'Z'` on code points (Rust `'A'..='Z'` / `[A-Z]`). -/
def is_upper (c : Char) : Bool := 65 ≤ c.toNat && c.toNat ≤ 90

/-- `'0' <= c && c <= '9'` on code points (Rust `'0'..='9'` / `[0-9]`). -/
def is_digit_char (c : Char) : Bool := 48 ≤ c.toNat && c.toNat ≤ 57

/-- A character of the class `[A-Z0-9]`. -/
def is_body_char (c : Char) : Bool := is_upper c || is_digit_char c

/-- A character of the class `[A0-9]` (the check-digit position). -/
def is_check_char (c : Char) : Bool := c = 'A' || is_digit_char c

/-- Rust `char::to_ascii_uppercase`: shift `'a'..='z'` down by 32, else id. -/
def ascii_upper (c : Char) : Char :=
  if 97 ≤ c.toNat ∧ c.toNat ≤ 122 then Char.ofNat (c.toNat - 32) else c

/-- `char_to_value` from `hkid_check_digit.rs` (and the identical private
`HKIDOps::char_to_value`): uppercase the character, then `'A'..='Z'` ↦ 10–35,
`'0'..='9'` ↦ 0–9, `' '` (code point 32) ↦ 36, anything else ↦ `None`. -/
def char_to_value (c : Char) : Option Nat :=
  let u := ascii_upper c
  if 65 ≤ u.toNat ∧ u.toNat ≤ 90 then some (u.toNat - 65 + 10)
  else if 48 ≤ u.toNat ∧ u.toNat ≤ 57 then some (u.toNat - 48)
  else if u.toNat = 32 then some 36
  else none

/-- `WEIGHTS: [u32; 8] = [9, 8, 7, 6, 5, 4, 3, 2]`. -/
def WEIGHTS : List Nat := [9, 8, 7, 6, 5, 4, 3, 2]

/-- The anchored regex `^[A-Z0-9]{7,8}$` (`VALID_HKID_BODY_PATTERN`):
length 7 or 8 and every character in the class `[A-Z0-9]`. -/
def valid_HKID_body (s : List Char) : Bool :=
  (s.length = 7 || s.length = 8) && s.all is_body_char

/-- Rust `format!("{:>8}", s)`: left-pad with spaces to width 8 (identity on
strings of length ≥ 8). -/
def pad8 (s : List Char) : List Char := List.replicate (8 - s.length) ' ' ++ s

/-- Rust `char::from_digit(d, 10)`. -/
def from_digit (d : Nat) : Option Char :=
  if d < 10 then some (Char.ofNat (48 + d)) else none

/-- `chars().map(char_to_value).collect::<Option<Vec<u32>>>()`: all the
character values, or `none` as soon as one character has no value. -/
def collect_values : List Char → Option (List Nat)
  | [] => some []
  | c :: cs =>
    match char_to_value c, collect_values cs with
    | some v, some vs => some (v :: vs)
    | _, _ => none

/-- The body of `calculate_check_digit` after the regex gate: map the padded
characters through `char_to_value` (the `collect::<Option<Vec<_>>>()?`),
sum the products with `WEIGHTS` position by position, and turn
`(11 - sum % 11) % 11` into a character (`'A'` for 10). -/
def check_digit_core (padded : List Char) : Option Char :=
  match collect_values padded with
  | none => none
  | some values =>
    let sum := ((values.zip WEIGHTS).map (fun vw => vw.1 * vw.2)).sum
    let cd := (11 - sum % 11) % 11
    if cd = 10 then some 'A' else from_digit cd

/-- `calculate_check_digit` from `hkid_check_digit.rs` (and the identical
`HKIDOps::calculate_check_digit`): reject anything outside
`^[A-Z0-9]{7,8}$`, left-pad to 8 characters, then run the weighted sum. -/
def calculate_check_digit (hkid_body : List Char) : Option Char :=
  if valid_HKID_body hkid_body then check_digit_core (pad8 hkid_body) else none

/-- The `HKIDPrefix` enum of `hkid_prefix.rs`: 30 known codes plus
`Unknown` carrying the original text. -/
inductive HKIDPrefix where
  | A | B | C | D | E | F | G | H | J | K | L | M | N | P | R | S | T | V | W | Y | Z
  | EC | WX | XA | XB | XC | XD | XE | XG | XH
  | Unknown (s : List Char)
deriving DecidableEq

/-- `HKIDPrefix::parse`: exact, case-sensitive match against the 30 code
strings, in declaration order; everything else becomes `Unknown(other)`. -/
def HKIDPrefix.parse (s : List Char) : HKIDPrefix :=
  if s = ['A'] then .A
  else if s = ['B'] then .B
  else if s = ['C'] then .C
  else if s = ['D'] then .D
  else if s = ['E'] then .E
  else if s = ['F'] then .F
  else if s = ['G'] then .G
  else if s = ['H'] then .H
  else if s = ['J'] then .J
  else if s = ['K'] then .K
  else if s = ['L'] then .L
  else if s = ['M'] then .M
  else if s = ['N'] then .N
  else if s = ['P'] then .P
  else if s = ['R'] then .R
  else if s = ['S'] then .S
  else if s = ['T'] then .T
  else if s = ['V'] then .V
  else if s = ['W'] then .W
  else if s = ['Y'] then .Y
  else if s = ['Z'] then .Z
  else if s = ['E', 'C'] then .EC
  else if s = ['W', 'X'] then .WX
  else if s = ['X', 'A'] then .XA
  else if s = ['X', 'B'] then .XB
  else if s = ['X', 'C'] then .XC
  else if s = ['X', 'D'] then .XD
  else if s = ['X', 'E'] then .XE
  else if s = ['X', 'G'] then .XG
  else if s = ['X', 'H'] then .XH
  else .Unknown s

/-- `HKIDPrefix::as_str`: the variant's name (`format!("{:?}")`) for known
variants, the stored text for `Unknown`. -/
def HKIDPrefix.as_str : HKIDPrefix → List Char
  | .A => ['A'] | .B => ['B'] | .C => ['C'] | .D => ['D'] | .E => ['E']
  | .F => ['F'] | .G => ['G'] | .H => ['H'] | .J => ['J'] | .K => ['K']
  | .L => ['L'] | .M => ['M'] | .N => ['N'] | .P => ['P'] | .R => ['R']
  | .S => ['S'] | .T => ['T'] | .V => ['V'] | .W => ['W'] | .Y => ['Y']
  | .Z => ['Z']
  | .EC => ['E', 'C'] | .WX => ['W', 'X'] | .XA => ['X', 'A'] | .XB => ['X', 'B']
  | .XC => ['X', 'C'] | .XD => ['X', 'D'] | .XE => ['X', 'E'] | .XG => ['X', 'G']
  | .XH => ['X', 'H']
  | .Unknown s => s

/-- `HKIDPrefix::is_known`: `!matches!(self, Unknown(_))`. -/
def HKIDPrefix.is_known : HKIDPrefix → Bool
  | .Unknown _ => false
  | _ => true

/-- `KNOWN_PREFIXES` (and equally `HKIDPrefix::iter().filter(is_known)
.map(as_str)` used by the free generator): the 30 code strings in
declaration order. -/
def knownPrefixStrings : List (List Char) :=
  [['A'], ['B'], ['C'], ['D'], ['E'], ['F'], ['G'], ['H'], ['J'], ['K'],
   ['L'], ['M'], ['N'], ['P'], ['R'], ['S'], ['T'], ['V'], ['W'], ['Y'], ['Z'],
   ['E', 'C'], ['W', 'X'], ['X', 'A'], ['X', 'B'], ['X', 'C'], ['X', 'D'],
   ['X', 'E'], ['X', 'G'], ['X', 'H']]

/-- The `HKIDSymbol` enum of `hkid_symbol.rs`. `LostCard` stores a `u8` in
the source; `parse_u8` below only ever produces values below 256. -/
inductive HKIDSymbol where
  | AdultEligibleReentryPermit
  | YouthEligibleReentryPermit
  | RightOfAbode
  | BirthDateOrPlaceChanged
  | StayLimitedByImmigration
  | NameChanged
  | BornOutsideHKChinaMacau
  | RightToLand
  | StayUnlimitedByImmigration
  | BornInMacau
  | BornInMainlandChina
  | BirthDateConfirmed
  | BornInHongKong
  | IssuingOfficeCode (s : List Char)
  | LostCard (n : Nat)
  | Unknown (s : List Char)
deriving DecidableEq

/-- Rust `str::parse::<u8>()`: an optional leading `'+'`, then one or more
ASCII decimal digits, value at most 255 (overflow is an error). -/
def parse_u8 (s : List Char) : Option Nat :=
  let ds := match s with
    | '+' :: rest => rest
    | _ => s
  if ds ≠ [] && ds.all is_digit_char then
    let n := ds.foldl (fun acc c => acc * 10 + (c.toNat - 48)) 0
    if n < 256 then some n else none
  else none

/-- The 13 fixed literal symbol codes matched first by `HKIDSymbol::parse`. -/
def symbolLiterals : List (List Char) :=
  [['*', '*', '*'], ['*'], ['A'], ['B'], ['C'], ['N'], ['O'], ['R'], ['U'],
   ['W'], ['X'], ['Y'], ['Z']]

/-- `HKIDSymbol::parse`: the 13 literals first; then the lost-card guard
(`starts_with('L') && len() > 1`, remainder parsed as `u8`); then the
two-character issuing-office guard (`len() == 2` with a decimal second
character); else `Unknown`. -/
def HKIDSymbol.parse (symbol : List Char) : HKIDSymbol :=
  if symbol = ['*', '*', '*'] then .AdultEligibleReentryPermit
  else if symbol = ['*'] then .YouthEligibleReentryPermit
  else if symbol = ['A'] then .RightOfAbode
  else if symbol = ['B'] then .BirthDateOrPlaceChanged
  else if symbol = ['C'] then .StayLimitedByImmigration
  else if symbol = ['N'] then .NameChanged
  else if symbol = ['O'] then .BornOutsideHKChinaMacau
  else if symbol = ['R'] then .RightToLand
  else if symbol = ['U'] then .StayUnlimitedByImmigration
  else if symbol = ['W'] then .BornInMacau
  else if symbol = ['X'] then .BornInMainlandChina
  else if symbol = ['Y'] then .BirthDateConfirmed
  else if symbol = ['Z'] then .BornInHongKong
  else if symbol.head? = some 'L' ∧ 1 < symbol.length then
    match parse_u8 (symbol.drop 1) with
    | some times => .LostCard times
    | none => .Unknown symbol
  else if symbol.length = 2 ∧ is_digit_char (symbol.getD 1 ' ') then
    .IssuingOfficeCode symbol
  else .Unknown symbol

/-- The parenthesis-stripping step of the validator:
`chars().filter(|&c| c != '(' && c != ')')`. -/
def strip_parens (s : List Char) : List Char :=
  s.filter (fun c => c ≠ '(' && c ≠ ')')

/-- The anchored regex `^([A-Z]{1,2})([0-9]{6})([A0-9])$`
(`HKID_FULL_PATTERN`) with its three capture groups. The three groups have
fixed widths `1∣2`, `6`, `1`, so a match has total length 8 (one-letter
group 1) or 9 (two-letter group 1) and the split is determined by the total
length alone; greedy backtracking cannot produce any other split. -/
def hkid_full_captures (s : List Char) :
    Option (List Char × List Char × List Char) :=
  if s.length = 8 then
    let p := s.take 1
    let d := (s.drop 1).take 6
    let c := s.drop 7
    if p.all is_upper && d.all is_digit_char && c.all is_check_char then
      some (p, d, c)
    else none
  else if s.length = 9 then
    let p := s.take 2
    let d := (s.drop 2).take 6
    let c := s.drop 8
    if p.all is_upper && d.all is_digit_char && c.all is_check_char then
      some (p, d, c)
    else none
  else none

/-- `validate_hkid` from `hkid_validator.rs` (the `HKIDOps::validate_hkid`
method differs only in how it reads the capture groups, with the same
behaviour): strip parentheses, match the full-HKID regex, optionally require
a known prefix, recompute the check digit over `prefix ++ digits` and
compare it with the provided one. Errors are the crate's `String` messages,
as character lists. -/
def validate_hkid (hkid_full : List Char) (must_exist_in_enum : Bool) :
    Except (List Char) Bool :=
  match hkid_full_captures (strip_parens hkid_full) with
  | none => .error ("Invalid HKID format: incorrect structure.".toList)
  | some (pfx, digits, provided) =>
    if must_exist_in_enum && !(HKIDPrefix.parse pfx).is_known then
      .error ("Prefix '".toList ++ pfx ++ "' is not recognized.".toList)
    else
      match calculate_check_digit (pfx ++ digits) with
      | none => .error ("Failed to calculate check digit".toList)
      | some cal =>
        match provided.head? with
        | none => .error ("Missing check digit".toList)
        | some pd => .ok (cal == pd)

/-- The outcomes drawn from the random source during one generator call:
the index used to choose a known prefix (`None, must_exist` case), the
letters produced by `random_prefix` (`None, !must_exist` case) and the six
digit characters. -/
structure RandSource where
  known_index : Nat
  rand_letters : List Char
  rand_digits : List Char
deriving DecidableEq

/-- What the Rust RNG calls guarantee about an outcome: `random_prefix`
returns 1 or 2 uppercase letters, and the digit loop returns 6 characters
`'0'..='9'`. -/
def RandSource.WF (r : RandSource) : Bool :=
  (r.rand_letters.length = 1 || r.rand_letters.length = 2) &&
    r.rand_letters.all is_upper &&
    r.rand_digits.length = 6 && r.rand_digits.all is_digit_char

/-- `slice::choose` on a list: `None` iff the list is empty, otherwise
some element (the RNG's pick, modelled by the index modulo the length). -/
def choose_from (l : List (List Char)) (idx : Nat) : Option (List Char) :=
  if l.isEmpty then none else l.get? (idx % l.length)

/-- The common tail of both generators: append the six random digits to the
resolved prefix string, compute the check digit and format
`"{body}({check_digit})"`. -/
def finish_hkid (pfx_str : List Char) (r : RandSource) :
    Except (List Char) (List Char) :=
  match calculate_check_digit (pfx_str ++ r.rand_digits) with
  | none => .error ("Failed to calculate check digit".toList)
  | some c => .ok (pfx_str ++ r.rand_digits ++ ['('] ++ [c] ++ [')'])

/-- `generate_hkid` from `hkid_generator.rs`: the four-way match on
`(prefix, must_exist_in_enum)`. Note it performs no prefix-format check of
its own; for `(Some(px), _)` the used prefix string is
`HKIDPrefix::parse(px).as_str()`. -/
def generate_hkid (pfx : Option (List Char)) (must_exist_in_enum : Bool)
    (r : RandSource) : Except (List Char) (List Char) :=
  match pfx, must_exist_in_enum with
  | some px, true =>
    if !(HKIDPrefix.parse px).is_known then
      .error ("Prefix '".toList ++ px ++ "' is not recognized".toList)
    else finish_hkid (HKIDPrefix.parse px).as_str r
  | some px, false => finish_hkid (HKIDPrefix.parse px).as_str r
  | none, true =>
    match choose_from knownPrefixStrings r.known_index with
    | none => .error ("No valid prefixes in HKIDPrefix enum".toList)
    | some p => finish_hkid p r
  | none, false => finish_hkid r.rand_letters r

/-- The anchored regex `^[A-Z]{1,2}$` (`VALID_PREFIX_PATTERN` in
`hkid_ops.rs`): 1 or 2 characters, all `[A-Z]`. -/
def valid_prefix_fmt (s : List Char) : Bool :=
  (s.length = 1 || s.length = 2) && s.all is_upper

/-- `HKIDOps::generate_hkid` from `hkid_ops.rs`: unlike the free function it
early-rejects any supplied prefix that fails `^[A-Z]{1,2}$`, then (when
`must_exist_in_enum`) any prefix the classifier does not know; the rest is
the same four-way resolution and common tail. -/
def hkid_ops_generate_hkid (pfx : Option (List Char))
    (must_exist_in_enum : Bool) (r : RandSource) :
    Except (List Char) (List Char) :=
  match pfx with
  | some px =>
    if !valid_prefix_fmt px then
      .error ("Prefix '".toList ++ px ++
        "' is not a valid HKID prefix format (must be 1 or 2 uppercase letters)".toList)
    else if must_exist_in_enum && !(HKIDPrefix.parse px).is_known then
      .error ("Prefix '".toList ++ px ++ "' is not recognized".toList)
    else finish_hkid (HKIDPrefix.parse px).as_str r
  | none =>
    if must_exist_in_enum then
      match choose_from knownPrefixStrings r.known_index with
      | none => .error ("No valid prefixes in HKIDPrefix enum".toList)
      | some p => finish_hkid p r
    else finish_hkid r.rand_letters r

/-- The loosened prefix shape `^[A-Z0-9]{1,2}$`: exactly the prefixes for
which `prefix ++ six digits` passes the body regex `^[A-Z0-9]{7,8}$`. -/
def valid_prefix_loose (s : List Char) : Bool :=
  (s.length = 1 || s.length = 2) && s.all is_body_char

/-- The claim's (spec's) description of the character mapping used by the
check-digit algorithm: `A`–`Z` to 10–35, digits to 0–9, space to 36 (total
on the characters that occur in a padded valid body). -/
def spec_char_value (c : Char) : Nat :=
  if is_upper c then c.toNat - 65 + 10
  else if is_digit_char c then c.toNat - 48
  else 36

/-- The claim's (spec's) description of the whole check-digit computation:
left-pad with spaces to width 8, map each character through
`spec_char_value`, sum products with `WEIGHTS`, take
`(11 - sum % 11) % 11`, render 10 as `'A'` and any other value as its ASCII
digit. -/
def spec_check_char (s : List Char) : Char :=
  let padded := List.replicate (8 - s.length) ' ' ++ s
  let sum := (((padded.map spec_char_value).zip WEIGHTS).map
    (fun vw => vw.1 * vw.2)).sum
  let d := (11 - sum % 11) % 11
  if d = 10 then 'A' else Char.ofNat (48 + d)

/-! ## Helper lemmas -/

/-- The characters the check-digit algorithm can produce. -/
def checkCharList : List Char :=
  ['0', '1', '2', '3', '4', '5', '6', '7', '8', '9', 'A']

theorem char_to_value_of_body_or_space (c : Char)
    (h : is_body_char c = true ∨ c = ' ') :
    char_to_value c = some (spec_char_value c) := by
  rcases h with h | rfl
  · simp only [is_body_char, is_upper, is_digit_char, Bool.or_eq_true,
      Bool.and_eq_true, decide_eq_true_eq] at h
    have hu : ascii_upper c = c := by
      unfold ascii_upper
      rw [if_neg (by omega)]
    unfold char_to_value spec_char_value is_upper is_digit_char
    rw [hu]
    simp only [Bool.and_eq_true, decide_eq_true_eq]
    split_ifs <;> first | rfl | omega
  · decide

theorem collect_values_eq_map (l : List Char)
    (h : ∀ c ∈ l, is_body_char c = true ∨ c = ' ') :
    collect_values l = some (l.map spec_char_value) := by
  induction l with
  | nil => rfl
  | cons c cs ih =>
    have hc := char_to_value_of_body_or_space c (h c (by simp))
    have hcs := ih (fun x hx => h x (by simp [hx]))
    simp [collect_values, hc, hcs]

theorem mem_pad8 (s : List Char) (c : Char) (hc : c ∈ pad8 s) :
    c ∈ s ∨ c = ' ' := by
  unfold pad8 at hc
  rcases List.mem_append.1 hc with h | h
  · exact Or.inr (List.eq_of_mem_replicate h)
  · exact Or.inl h

theorem render_digit (d : Nat) (hd : d < 11) :
    (if d = 10 then some 'A' else from_digit d) =
      some (if d = 10 then 'A' else Char.ofNat (48 + d)) := by
  by_cases h : d = 10
  · simp [h]
  · rw [if_neg h, if_neg h]
    unfold from_digit
    rw [if_pos (by omega)]

theorem calculate_check_digit_of_valid (s : List Char)
    (h : valid_HKID_body s = true) :
    calculate_check_digit s = some (spec_check_char s) := by
  have hall : ∀ c ∈ s, is_body_char c = true := by
    have := h
    unfold valid_HKID_body at this
    simp only [Bool.and_eq_true, List.all_eq_true] at this
    exact this.2
  have hcv := collect_values_eq_map (pad8 s) (fun c hc =>
    (mem_pad8 s c hc).imp_left (hall c))
  unfold calculate_check_digit check_digit_core
  rw [if_pos h, hcv]
  exact render_digit _ (Nat.mod_lt _ (by norm_num))

theorem spec_check_char_mem (s : List Char) :
    spec_check_char s ∈ checkCharList := by
  have gen : ∀ d : Nat, d < 11 →
      (if d = 10 then 'A' else Char.ofNat (48 + d)) ∈ checkCharList := by
    intro d hd
    interval_cases d <;> decide
  exact gen _ (Nat.mod_lt _ (by norm_num))

theorem is_check_char_of_mem (c : Char) (h : c ∈ checkCharList) :
    is_check_char c = true := by
  fin_cases h <;> decide

theorem valid_body_append (p d : List Char) (hp : valid_prefix_fmt p = true)
    (hd6 : d.length = 6) (hdd : d.all is_digit_char = true) :
    valid_HKID_body (p ++ d) = true := by
  unfold valid_prefix_fmt at hp
  unfold valid_HKID_body
  simp only [Bool.and_eq_true, Bool.or_eq_true, decide_eq_true_eq,
    List.all_eq_true, List.length_append, List.mem_append] at *
  refine ⟨by omega, fun c hc => ?_⟩
  unfold is_body_char
  rcases hc with hc | hc
  · simp [hp.2 c hc]
  · simp [hdd c hc]

theorem valid_body_append_iff (p d : List Char)
    (hd6 : d.length = 6) (hdd : d.all is_digit_char = true) :
    valid_HKID_body (p ++ d) = true ↔ valid_prefix_loose p = true := by
  unfold valid_HKID_body valid_prefix_loose
  simp only [Bool.and_eq_true, Bool.or_eq_true, decide_eq_true_eq,
    List.all_eq_true, List.length_append, List.mem_append] at *
  constructor
  · rintro ⟨hl, hall⟩
    exact ⟨by omega, fun c hc => hall c (Or.inl hc)⟩
  · rintro ⟨hl, hall⟩
    refine ⟨by omega, fun c hc => ?_⟩
    rcases hc with hc | hc
    · exact hall c hc
    · unfold is_body_char
      simp [hdd c hc]

theorem body_char_not_paren (c : Char) (h : is_body_char c = true) :
    (c ≠ '(' && c ≠ ')') = true := by
  simp only [is_body_char, is_upper, is_digit_char, Bool.or_eq_true,
    Bool.and_eq_true, decide_eq_true_eq] at h
  simp only [Bool.and_eq_true, ne_eq, decide_eq_true_eq]
  constructor <;> rintro rfl <;> revert h <;> decide

theorem check_char_not_paren (c : Char) (h : is_check_char c = true) :
    (c ≠ '(' && c ≠ ')') = true := by
  simp only [is_check_char, is_digit_char, Bool.or_eq_true, Bool.and_eq_true,
    decide_eq_true_eq] at h
  simp only [Bool.and_eq_true, ne_eq, decide_eq_true_eq]
  constructor <;> rintro rfl <;> revert h <;> decide

theorem strip_parens_append (a b : List Char) :
    strip_parens (a ++ b) = strip_parens a ++ strip_parens b :=
  List.filter_append a b

theorem strip_parens_of_body (s : List Char) (h : s.all is_body_char = true) :
    strip_parens s = s := by
  refine List.filter_eq_self.mpr fun c hc => ?_
  exact body_char_not_paren c (by simp only [List.all_eq_true] at h; exact h c hc)

theorem strip_parens_formatted (body : List Char) (c : Char)
    (hb : body.all is_body_char = true) (hc : is_check_char c = true) :
    strip_parens (body ++ ['('] ++ [c] ++ [')']) = body ++ [c] := by
  rw [strip_parens_append, strip_parens_append, strip_parens_append,
    strip_parens_of_body body hb]
  have h1 : strip_parens ['('] = [] := rfl
  have h3 : strip_parens [')'] = [] := rfl
  have h2 : strip_parens [c] = [c] :=
    List.filter_eq_self.mpr fun x hx => by
      rcases List.mem_singleton.1 hx with rfl
      exact check_char_not_paren x hc
  rw [h1, h2, h3]
  simp

theorem captures_append (p d : List Char) (c : Char)
    (hp : valid_prefix_fmt p = true) (hd6 : d.length = 6)
    (hdd : d.all is_digit_char = true) (hc : is_check_char c = true) :
    hkid_full_captures (p ++ d ++ [c]) = some (p, d, [c]) := by
  have hp' := hp
  unfold valid_prefix_fmt at hp'
  simp only [Bool.and_eq_true, Bool.or_eq_true, decide_eq_true_eq] at hp'
  obtain ⟨hlen, hup⟩ := hp'
  have hguard : (p.all is_upper && d.all is_digit_char &&
      List.all [c] is_check_char) = true := by
    simp [hup, hdd, hc]
  rcases hlen with h1 | h2
  · have hL : (p ++ d ++ [c]).length = 8 := by simp [h1, hd6]
    unfold hkid_full_captures
    rw [if_pos hL]
    have ht : (p ++ d ++ [c]).take 1 = p := by
      rw [List.append_assoc, show (1 : Nat) = p.length from h1.symm,
        List.take_left]
    have hdm : ((p ++ d ++ [c]).drop 1).take 6 = d := by
      rw [List.append_assoc, show (1 : Nat) = p.length from h1.symm,
        List.drop_left, show (6 : Nat) = d.length from hd6.symm,
        List.take_left]
    have hcm : (p ++ d ++ [c]).drop 7 = [c] := by
      rw [show (7 : Nat) = (p ++ d).length by simp [h1, hd6], List.drop_left]
    rw [ht, hdm, hcm, if_pos hguard]
  · have hL9 : (p ++ d ++ [c]).length = 9 := by simp [h2, hd6]
    unfold hkid_full_captures
    rw [if_neg (by rw [hL9]; omega), if_pos hL9]
    have ht : (p ++ d ++ [c]).take 2 = p := by
      rw [List.append_assoc, show (2 : Nat) = p.length from h2.symm,
        List.take_left]
    have hdm : ((p ++ d ++ [c]).drop 2).take 6 = d := by
      rw [List.append_assoc, show (2 : Nat) = p.length from h2.symm,
        List.drop_left, show (6 : Nat) = d.length from hd6.symm,
        List.take_left]
    have hcm : (p ++ d ++ [c]).drop 8 = [c] := by
      rw [show (8 : Nat) = (p ++ d).length by simp [h2, hd6], List.drop_left]
    rw [ht, hdm, hcm, if_pos hguard]

theorem captures_inv (s p d c : List Char)
    (h : hkid_full_captures s = some (p, d, c)) :
    valid_prefix_fmt p = true ∧ d.length = 6 ∧ d.all is_digit_char = true ∧
      (∃ ch, c = [ch] ∧ is_check_char ch = true) ∧ s = p ++ d ++ c := by
  simp only [hkid_full_captures] at h
  split_ifs at h with h8 hg h9 hg2
  · simp only [Option.some.injEq, Prod.mk.injEq] at h
    obtain ⟨rfl, rfl, rfl⟩ := h
    simp only [Bool.and_eq_true, List.all_eq_true] at hg
    obtain ⟨⟨hgp, hgd⟩, hgc⟩ := hg
    have hpl : (s.take 1).length = 1 := by simp [h8]
    have hdl : ((s.drop 1).take 6).length = 6 := by simp [h8]
    have hcl : (s.drop 7).length = 1 := by simp [h8]
    obtain ⟨ch, hch⟩ := List.length_eq_one.1 hcl
    refine ⟨?_, hdl, ?_, ⟨ch, hch, ?_⟩, ?_⟩
    · unfold valid_prefix_fmt
      simp only [Bool.and_eq_true, Bool.or_eq_true, decide_eq_true_eq,
        List.all_eq_true]
      exact ⟨Or.inl hpl, hgp⟩
    · simp only [List.all_eq_true]
      exact hgd
    · exact hgc ch (by simp [hch])
    · have hmid : (s.drop 1).take 6 ++ s.drop 7 = s.drop 1 := by
        rw [show (7 : Nat) = 1 + 6 by norm_num, ← List.drop_drop,
          List.take_append_drop]
      rw [List.append_assoc, hmid, List.take_append_drop]
  · simp only [Option.some.injEq, Prod.mk.injEq] at h
    obtain ⟨rfl, rfl, rfl⟩ := h
    simp only [Bool.and_eq_true, List.all_eq_true] at hg2
    obtain ⟨⟨hgp, hgd⟩, hgc⟩ := hg2
    have hpl : (s.take 2).length = 2 := by simp [h9]
    have hdl : ((s.drop 2).take 6).length = 6 := by simp [h9]
    have hcl : (s.drop 8).length = 1 := by simp [h9]
    obtain ⟨ch, hch⟩ := List.length_eq_one.1 hcl
    refine ⟨?_, hdl, ?_, ⟨ch, hch, ?_⟩, ?_⟩
    · unfold valid_prefix_fmt
      simp only [Bool.and_eq_true, Bool.or_eq_true, decide_eq_true_eq,
        List.all_eq_true]
      exact ⟨Or.inr hpl, hgp⟩
    · simp only [List.all_eq_true]
      exact hgd
    · exact hgc ch (by simp [hch])
    · have hmid : (s.drop 2).take 6 ++ s.drop 8 = s.drop 2 := by
        rw [show (8 : Nat) = 2 + 6 by norm_num, ← List.drop_drop,
          List.take_append_drop]
      rw [List.append_assoc, hmid, List.take_append_drop]

theorem parse_as_str (s : List Char) : (HKIDPrefix.parse s).as_str = s := by
  by_cases h1 : s = ['A']
  · subst h1; rfl
  by_cases h2 : s = ['B']
  · subst h2; rfl
  by_cases h3 : s = ['C']
  · subst h3; rfl
  by_cases h4 : s = ['D']
  · subst h4; rfl
  by_cases h5 : s = ['E']
  · subst h5; rfl
  by_cases h6 : s = ['F']
  · subst h6; rfl
  by_cases h7 : s = ['G']
  · subst h7; rfl
  by_cases h8 : s = ['H']
  · subst h8; rfl
  by_cases h9 : s = ['J']
  · subst h9; rfl
  by_cases h10 : s = ['K']
  · subst h10; rfl
  by_cases h11 : s = ['L']
  · subst h11; rfl
  by_cases h12 : s = ['M']
  · subst h12; rfl
  by_cases h13 : s = ['N']
  · subst h13; rfl
  by_cases h14 : s = ['P']
  · subst h14; rfl
  by_cases h15 : s = ['R']
  · subst h15; rfl
  by_cases h16 : s = ['S']
  · subst h16; rfl
  by_cases h17 : s = ['T']
  · subst h17; rfl
  by_cases h18 : s = ['V']
  · subst h18; rfl
  by_cases h19 : s = ['W']
  · subst h19; rfl
  by_cases h20 : s = ['Y']
  · subst h20; rfl
  by_cases h21 : s = ['Z']
  · subst h21; rfl
  by_cases h22 : s = ['E', 'C']
  · subst h22; rfl
  by_cases h23 : s = ['W', 'X']
  · subst h23; rfl
  by_cases h24 : s = ['X', 'A']
  · subst h24; rfl
  by_cases h25 : s = ['X', 'B']
  · subst h25; rfl
  by_cases h26 : s = ['X', 'C']
  · subst h26; rfl
  by_cases h27 : s = ['X', 'D']
  · subst h27; rfl
  by_cases h28 : s = ['X', 'E']
  · subst h28; rfl
  by_cases h29 : s = ['X', 'G']
  · subst h29; rfl
  by_cases h30 : s = ['X', 'H']
  · subst h30; rfl
  unfold HKIDPrefix.parse
  rw [if_neg h1, if_neg h2, if_neg h3, if_neg h4, if_neg h5, if_neg h6, if_neg h7, if_neg h8, if_neg h9, if_neg h10, if_neg h11, if_neg h12, if_neg h13, if_neg h14, if_neg h15, if_neg h16, if_neg h17, if_neg h18, if_neg h19, if_neg h20, if_neg h21, if_neg h22, if_neg h23, if_neg h24, if_neg h25, if_neg h26, if_neg h27, if_neg h28, if_neg h29, if_neg h30]
  rfl

theorem parse_known_iff (s : List Char) :
    (HKIDPrefix.parse s).is_known = true ↔ s ∈ knownPrefixStrings := by
  by_cases h1 : s = ['A']
  · subst h1; decide
  by_cases h2 : s = ['B']
  · subst h2; decide
  by_cases h3 : s = ['C']
  · subst h3; decide
  by_cases h4 : s = ['D']
  · subst h4; decide
  by_cases h5 : s = ['E']
  · subst h5; decide
  by_cases h6 : s = ['F']
  · subst h6; decide
  by_cases h7 : s = ['G']
  · subst h7; decide
  by_cases h8 : s = ['H']
  · subst h8; decide
  by_cases h9 : s = ['J']
  · subst h9; decide
  by_cases h10 : s = ['K']
  · subst h10; decide
  by_cases h11 : s = ['L']
  · subst h11; decide
  by_cases h12 : s = ['M']
  · subst h12; decide
  by_cases h13 : s = ['N']
  · subst h13; decide
  by_cases h14 : s = ['P']
  · subst h14; decide
  by_cases h15 : s = ['R']
  · subst h15; decide
  by_cases h16 : s = ['S']
  · subst h16; decide
  by_cases h17 : s = ['T']
  · subst h17; decide
  by_cases h18 : s = ['V']
  · subst h18; decide
  by_cases h19 : s = ['W']
  · subst h19; decide
  by_cases h20 : s = ['Y']
  · subst h20; decide
  by_cases h21 : s = ['Z']
  · subst h21; decide
  by_cases h22 : s = ['E', 'C']
  · subst h22; decide
  by_cases h23 : s = ['W', 'X']
  · subst h23; decide
  by_cases h24 : s = ['X', 'A']
  · subst h24; decide
  by_cases h25 : s = ['X', 'B']
  · subst h25; decide
  by_cases h26 : s = ['X', 'C']
  · subst h26; decide
  by_cases h27 : s = ['X', 'D']
  · subst h27; decide
  by_cases h28 : s = ['X', 'E']
  · subst h28; decide
  by_cases h29 : s = ['X', 'G']
  · subst h29; decide
  by_cases h30 : s = ['X', 'H']
  · subst h30; decide
  unfold HKIDPrefix.parse
  rw [if_neg h1, if_neg h2, if_neg h3, if_neg h4, if_neg h5, if_neg h6, if_neg h7, if_neg h8, if_neg h9, if_neg h10, if_neg h11, if_neg h12, if_neg h13, if_neg h14, if_neg h15, if_neg h16, if_neg h17, if_neg h18, if_neg h19, if_neg h20, if_neg h21, if_neg h22, if_neg h23, if_neg h24, if_neg h25, if_neg h26, if_neg h27, if_neg h28, if_neg h29, if_neg h30]
  simp [HKIDPrefix.is_known, knownPrefixStrings, h1, h2, h3, h4, h5, h6, h7, h8, h9, h10, h11, h12, h13, h14, h15, h16, h17, h18, h19, h20, h21, h22, h23, h24, h25, h26, h27, h28, h29, h30]

theorem parse_unknown_of_not_mem (s : List Char)
    (hmem : s ∉ knownPrefixStrings) : HKIDPrefix.parse s = .Unknown s := by
  by_cases h1 : s = ['A']
  · exact absurd (by rw [h1]; decide) hmem
  by_cases h2 : s = ['B']
  · exact absurd (by rw [h2]; decide) hmem
  by_cases h3 : s = ['C']
  · exact absurd (by rw [h3]; decide) hmem
  by_cases h4 : s = ['D']
  · exact absurd (by rw [h4]; decide) hmem
  by_cases h5 : s = ['E']
  · exact absurd (by rw [h5]; decide) hmem
  by_cases h6 : s = ['F']
  · exact absurd (by rw [h6]; decide) hmem
  by_cases h7 : s = ['G']
  · exact absurd (by rw [h7]; decide) hmem
  by_cases h8 : s = ['H']
  · exact absurd (by rw [h8]; decide) hmem
  by_cases h9 : s = ['J']
  · exact absurd (by rw [h9]; decide) hmem
  by_cases h10 : s = ['K']
  · exact absurd (by rw [h10]; decide) hmem
  by_cases h11 : s = ['L']
  · exact absurd (by rw [h11]; decide) hmem
  by_cases h12 : s = ['M']
  · exact absurd (by rw [h12]; decide) hmem
  by_cases h13 : s = ['N']
  · exact absurd (by rw [h13]; decide) hmem
  by_cases h14 : s = ['P']
  · exact absurd (by rw [h14]; decide) hmem
  by_cases h15 : s = ['R']
  · exact absurd (by rw [h15]; decide) hmem
  by_cases h16 : s = ['S']
  · exact absurd (by rw [h16]; decide) hmem
  by_cases h17 : s = ['T']
  · exact absurd (by rw [h17]; decide) hmem
  by_cases h18 : s = ['V']
  · exact absurd (by rw [h18]; decide) hmem
  by_cases h19 : s = ['W']
  · exact absurd (by rw [h19]; decide) hmem
  by_cases h20 : s = ['Y']
  · exact absurd (by rw [h20]; decide) hmem
  by_cases h21 : s = ['Z']
  · exact absurd (by rw [h21]; decide) hmem
  by_cases h22 : s = ['E', 'C']
  · exact absurd (by rw [h22]; decide) hmem
  by_cases h23 : s = ['W', 'X']
  · exact absurd (by rw [h23]; decide) hmem
  by_cases h24 : s = ['X', 'A']
  · exact absurd (by rw [h24]; decide) hmem
  by_cases h25 : s = ['X', 'B']
  · exact absurd (by rw [h25]; decide) hmem
  by_cases h26 : s = ['X', 'C']
  · exact absurd (by rw [h26]; decide) hmem
  by_cases h27 : s = ['X', 'D']
  · exact absurd (by rw [h27]; decide) hmem
  by_cases h28 : s = ['X', 'E']
  · exact absurd (by rw [h28]; decide) hmem
  by_cases h29 : s = ['X', 'G']
  · exact absurd (by rw [h29]; decide) hmem
  by_cases h30 : s = ['X', 'H']
  · exact absurd (by rw [h30]; decide) hmem
  unfold HKIDPrefix.parse
  rw [if_neg h1, if_neg h2, if_neg h3, if_neg h4, if_neg h5, if_neg h6, if_neg h7, if_neg h8, if_neg h9, if_neg h10, if_neg h11, if_neg h12, if_neg h13, if_neg h14, if_neg h15, if_neg h16, if_neg h17, if_neg h18, if_neg h19, if_neg h20, if_neg h21, if_neg h22, if_neg h23, if_neg h24, if_neg h25, if_neg h26, if_neg h27, if_neg h28, if_neg h29, if_neg h30]

theorem known_mem_valid :
    ∀ p ∈ knownPrefixStrings, valid_prefix_fmt p = true := by decide

theorem choose_from_mem (l : List (List Char)) (idx : Nat) (p : List Char)
    (h : choose_from l idx = some p) : p ∈ l := by
  unfold choose_from at h
  split_ifs at h
  exact List.get?_mem h

theorem is_known_iff_not_unknown (p : HKIDPrefix) :
    p.is_known = true ↔ ∀ t, p ≠ HKIDPrefix.Unknown t := by
  cases p <;> simp [HKIDPrefix.is_known]

theorem validate_eq_of_captures (s : List Char) (m : Bool) (p d c : List Char)
    (hcap : hkid_full_captures (strip_parens s) = some (p, d, c))
    (hk : m = true → (HKIDPrefix.parse p).is_known = true) :
    ∃ cal ch, calculate_check_digit (p ++ d) = some cal ∧ c = [ch] ∧
      validate_hkid s m = .ok (cal == ch) := by
  obtain ⟨hp, hd6, hdd, ⟨ch, rfl, hch⟩, hs⟩ := captures_inv _ _ _ _ hcap
  have hvb := valid_body_append p d hp hd6 hdd
  have hcd := calculate_check_digit_of_valid _ hvb
  refine ⟨spec_check_char (p ++ d), ch, hcd, rfl, ?_⟩
  have hknown : (m && !(HKIDPrefix.parse p).is_known) = false := by
    cases m
    · rfl
    · simp [hk rfl]
  unfold validate_hkid
  rw [hcap]
  simp only [hknown, Bool.false_eq_true, if_false, hcd, List.head?]

theorem finish_hkid_ok (pfxs : List Char) (r : RandSource) (hr : r.WF = true)
    (hp : valid_prefix_fmt pfxs = true) :
    finish_hkid pfxs r =
      .ok (pfxs ++ r.rand_digits ++ ['('] ++
        [spec_check_char (pfxs ++ r.rand_digits)] ++ [')']) ∧
      calculate_check_digit (pfxs ++ r.rand_digits) =
        some (spec_check_char (pfxs ++ r.rand_digits)) := by
  unfold RandSource.WF at hr
  simp only [Bool.and_eq_true, decide_eq_true_eq] at hr
  have hvb := valid_body_append pfxs r.rand_digits hp hr.1.2 hr.2
  have hcd := calculate_check_digit_of_valid _ hvb
  refine ⟨?_, hcd⟩
  unfold finish_hkid
  rw [hcd]

theorem validate_of_finish (pfxs : List Char) (r : RandSource) (m : Bool)
    (h : List Char) (hr : r.WF = true) (hp : valid_prefix_fmt pfxs = true)
    (hk : m = true → (HKIDPrefix.parse pfxs).is_known = true)
    (hfin : finish_hkid pfxs r = .ok h) :
    validate_hkid h m = .ok true := by
  obtain ⟨hok, hcd⟩ := finish_hkid_ok pfxs r hr hp
  have hh : h = pfxs ++ r.rand_digits ++ ['('] ++
      [spec_check_char (pfxs ++ r.rand_digits)] ++ [')'] :=
    Except.ok.inj (hfin.symm.trans hok)
  subst hh
  have hr' := hr
  unfold RandSource.WF at hr'
  simp only [Bool.and_eq_true, decide_eq_true_eq] at hr'
  obtain ⟨⟨_, hd6⟩, hdd⟩ := hr'
  have hball : (pfxs ++ r.rand_digits).all is_body_char = true := by
    have hvb := valid_body_append pfxs r.rand_digits hp hd6 hdd
    unfold valid_HKID_body at hvb
    simp only [Bool.and_eq_true] at hvb
    exact hvb.2
  have hch : is_check_char (spec_check_char (pfxs ++ r.rand_digits)) = true :=
    is_check_char_of_mem _ (spec_check_char_mem _)
  have hclean := strip_parens_formatted (pfxs ++ r.rand_digits) _ hball hch
  have hcap := captures_append pfxs r.rand_digits
    (spec_check_char (pfxs ++ r.rand_digits)) hp hd6 hdd hch
  obtain ⟨cal, ch, hcal, hcheq, hval⟩ := validate_eq_of_captures _ m pfxs
    r.rand_digits [spec_check_char (pfxs ++ r.rand_digits)]
    (by rw [hclean]; exact hcap) hk
  have hcal' : cal = spec_check_char (pfxs ++ r.rand_digits) :=
    Option.some.inj (hcal.symm.trans hcd)
  have hch' : ch = spec_check_char (pfxs ++ r.rand_digits) :=
    (List.cons.inj hcheq.symm).1
  rw [hval, hcal', hch']
  simp

theorem calc_none_iff (body : List Char) :
    calculate_check_digit body = none ↔ valid_HKID_body body = false := by
  constructor
  · intro h
    cases hvb : valid_HKID_body body
    · rfl
    · rw [calculate_check_digit_of_valid body hvb] at h
      cases h
  · intro h
    unfold calculate_check_digit
    rw [h]
    simp

theorem finish_error_iff (pfxs : List Char) (r : RandSource) :
    (∃ e, finish_hkid pfxs r = .error e) ↔
      valid_HKID_body (pfxs ++ r.rand_digits) = false := by
  unfold finish_hkid
  cases hcd : calculate_check_digit (pfxs ++ r.rand_digits) with
  | none =>
    simp only [true_and]
    constructor
    · intro _
      exact (calc_none_iff _).mp hcd
    · intro _
      exact ⟨_, rfl⟩
  | some c =>
    constructor
    · rintro ⟨e, he⟩
      cases he
    · intro hvb
      rw [(calc_none_iff _).mpr hvb] at hcd
      cases hcd

theorem strip_parens_idem (s : List Char) :
    strip_parens (strip_parens s) = strip_parens s := by
  unfold strip_parens
  rw [List.filter_filter]
  congr 1
  funext c
  rw [Bool.and_self]

/-- Decidable equality of `Except` results, for evaluating the embedded
functions at concrete inputs. -/
instance {ε α : Type} [DecidableEq ε] [DecidableEq α] :
    DecidableEq (Except ε α) := fun x y =>
  match x, y with
  | .ok a, .ok b =>
    if h : a = b then isTrue (by rw [h])
    else isFalse (by intro hc; cases hc; exact h rfl)
  | .error a, .error b =>
    if h : a = b then isTrue (by rw [h])
    else isFalse (by intro hc; cases hc; exact h rfl)
  | .ok _, .error _ => isFalse (by intro hc; cases hc)
  | .error _, .ok _ => isFalse (by intro hc; cases hc)

/-! ## Claim theorems -/

/-- C1: for every string matching `^[A-Z0-9]{7,8}$`, `calculate_check_digit`
returns `Some c` where `c` is the left-pad/value-map/weighted-sum
`(11 - sum mod 11) mod 11` character described by the spec
(`spec_check_char`), and the result always lies in `{'0'..'9','A'}`; for
every non-matching string it returns `None`; in particular
`calculate_check_digit("A123456") = Some('3')` and
`calculate_check_digit("AB123456") = Some('9')`. -/
theorem calculate_check_digit_correct :
    (∀ s : List Char, valid_HKID_body s = true →
        calculate_check_digit s = some (spec_check_char s) ∧
        spec_check_char s ∈ checkCharList) ∧
    (∀ s : List Char, valid_HKID_body s = false →
        calculate_check_digit s = none) ∧
    calculate_check_digit ("A123456".toList) = some '3' ∧
    calculate_check_digit ("AB123456".toList) = some '9' := by
  refine ⟨fun s hs => ⟨calculate_check_digit_of_valid s hs,
    spec_check_char_mem s⟩, fun s hs => ?_, by decide, by decide⟩
  unfold calculate_check_digit
  rw [hs]
  simp

/-- C2 counterexample: with the reachable random outcome giving digits
`000000`, `generate_hkid(Some("A1"), false)` succeeds (the free generator
never checks the prefix format), yet validating its output fails the full
HKID structural pattern, so the round trip does not return `Ok(true)`. -/
theorem generate_validate_round_trip_counterexample :
    RandSource.WF ⟨0, ['A'], "000000".toList⟩ = true ∧
    generate_hkid (some ("A1".toList)) false ⟨0, ['A'], "000000".toList⟩ =
      .ok ("A1000000(1)".toList) ∧
    validate_hkid ("A1000000(1)".toList) false =
      .error ("Invalid HKID format: incorrect structure.".toList) :=
  ⟨by decide, by decide, by decide⟩

/-- C2 (amended): for every prefix argument whose supplied value (if any)
matches `^[A-Z]{1,2}$`, every flag, and every well-formed outcome of the
random source such that `generate_hkid` returns `Ok(hkid)`,
`validate_hkid(hkid, m)` returns `Ok(true)`. -/
theorem generate_validate_round_trip (p : Option (List Char)) (m : Bool)
    (r : RandSource) (h : List Char) (hr : r.WF = true)
    (hp : ∀ px, p = some px → valid_prefix_fmt px = true)
    (hgen : generate_hkid p m r = .ok h) :
    validate_hkid h m = .ok true := by
  match p, m with
  | some px, true =>
    simp only [generate_hkid] at hgen
    by_cases hk : (HKIDPrefix.parse px).is_known = true
    · rw [if_neg (by simp [hk]), parse_as_str] at hgen
      exact validate_of_finish px r true h hr (hp px rfl) (fun _ => hk) hgen
    · rw [if_pos (by simp [Bool.not_eq_true] at hk ⊢; exact hk)] at hgen
      cases hgen
  | some px, false =>
    simp only [generate_hkid] at hgen
    rw [parse_as_str] at hgen
    exact validate_of_finish px r false h hr (hp px rfl) (by simp) hgen
  | none, true =>
    simp only [generate_hkid] at hgen
    cases hc : choose_from knownPrefixStrings r.known_index with
    | none =>
      rw [hc] at hgen
      cases hgen
    | some q =>
      rw [hc] at hgen
      have hqm := choose_from_mem _ _ _ hc
      exact validate_of_finish q r true h hr (known_mem_valid q hqm)
        (fun _ => (parse_known_iff q).mpr hqm) hgen
  | none, false =>
    simp only [generate_hkid] at hgen
    have hl : valid_prefix_fmt r.rand_letters = true := by
      unfold RandSource.WF at hr
      unfold valid_prefix_fmt
      simp only [Bool.and_eq_true] at hr ⊢
      exact hr.1.1
    exact validate_of_finish r.rand_letters r false h hr hl (by simp) hgen

/-- C2 witness: the amended round trip at the concrete input
`generate_hkid(Some("A"), false)` with random digits `000000`. -/
theorem generate_validate_round_trip_witness :
    validate_hkid ("A000000(3)".toList) false = .ok true :=
  generate_validate_round_trip (some ("A".toList)) false
    ⟨0, ['A'], "000000".toList⟩ ("A000000(3)".toList) (by decide)
    (fun px hpx => by cases hpx; decide) (by decide)

/-- C3 counterexample: left-padding the valid 7-character body `A123456`
with one space makes `calculate_check_digit` return `None` (the space fails
the `^[A-Z0-9]{7,8}$` gate), so it does not equal
`calculate_check_digit("A123456") = Some('3')`. -/
theorem check_digit_padding_counterexample :
    calculate_check_digit ("A123456".toList) = some '3' ∧
    calculate_check_digit (' ' :: "A123456".toList) = none :=
  ⟨by decide, by decide⟩

/-- C3 (amended): for every 7-character body matching `^[A-Z0-9]{7}$`,
`calculate_check_digit(" " + b)` is `None` (the space fails the body
pattern), while `calculate_check_digit(b)` equals the unguarded weighted-sum
core evaluated on `" " + b`: padding invariance holds for the internal
computation, not through the public function. -/
theorem check_digit_padding (b : List Char) (h7 : b.length = 7)
    (hb : b.all is_body_char = true) :
    calculate_check_digit (' ' :: b) = none ∧
    calculate_check_digit b = check_digit_core (' ' :: b) := by
  constructor
  · have hvb : valid_HKID_body (' ' :: b) = false := by
      unfold valid_HKID_body
      simp [List.all_cons, (by decide : is_body_char ' ' = false)]
    unfold calculate_check_digit
    rw [hvb]
    simp
  · have hvb : valid_HKID_body b = true := by
      unfold valid_HKID_body
      simp [h7, hb]
    unfold calculate_check_digit
    rw [if_pos hvb]
    congr 1
    unfold pad8
    rw [h7]
    rfl

/-- C3 witness: the amended statement at the concrete body `A123456`. -/
theorem check_digit_padding_witness :
    calculate_check_digit (' ' :: "A123456".toList) = none ∧
    calculate_check_digit ("A123456".toList) =
      check_digit_core (' ' :: "A123456".toList) :=
  check_digit_padding ("A123456".toList) (by decide) (by decide)

/-- C4 counterexample: the free `generate_hkid` of `hkid_generator.rs`
performs no prefix-format check: with prefix `"Z9"` (which does not match
`^[A-Z]{1,2}$`) and the flag false it succeeds instead of returning an
error, refuting the claimed "error if and only if" for that function. -/
theorem generate_prefix_format_counterexample :
    RandSource.WF ⟨0, ['A'], "123456".toList⟩ = true ∧
    valid_prefix_fmt ("Z9".toList) = false ∧
    generate_hkid (some ("Z9".toList)) false ⟨0, ['A'], "123456".toList⟩ =
      .ok ("Z9123456(9)".toList) :=
  ⟨by decide, by decide, by decide⟩

/-- C4 (amended): the claimed behaviour holds of `HKIDOps::generate_hkid`
(`hkid_ops.rs`), which early-rejects exactly the prefixes failing
`^[A-Z]{1,2}$` and, with the flag, the unknown ones, and otherwise succeeds
using the prefix as-is; the free `hkid_generator::generate_hkid`, by
contrast, errors on `(Some(p), false)` exactly when `p` fails the looser
shape `^[A-Z0-9]{1,2}$` (the error surfacing from the check-digit body
gate instead). -/
theorem generate_prefix_format_rules (px : List Char) (r : RandSource)
    (hr : r.WF = true) :
    ((∃ e, hkid_ops_generate_hkid (some px) false r = .error e) ↔
        valid_prefix_fmt px = false) ∧
    ((∃ e, hkid_ops_generate_hkid (some px) true r = .error e) ↔
        (valid_prefix_fmt px = false ∨
          (HKIDPrefix.parse px).is_known = false)) ∧
    (∀ m : Bool, valid_prefix_fmt px = true →
        (m = true → (HKIDPrefix.parse px).is_known = true) →
        hkid_ops_generate_hkid (some px) m r =
          .ok (px ++ r.rand_digits ++ ['('] ++
            [spec_check_char (px ++ r.rand_digits)] ++ [')'])) ∧
    ((∃ e, generate_hkid (some px) false r = .error e) ↔
        valid_prefix_loose px = false) := by
  have hr' := hr
  unfold RandSource.WF at hr'
  simp only [Bool.and_eq_true, decide_eq_true_eq] at hr'
  obtain ⟨⟨_, hd6⟩, hdd⟩ := hr'
  have hfin_ok : ∀ m : Bool, valid_prefix_fmt px = true →
      (m = true → (HKIDPrefix.parse px).is_known = true) →
      hkid_ops_generate_hkid (some px) m r =
        .ok (px ++ r.rand_digits ++ ['('] ++
          [spec_check_char (px ++ r.rand_digits)] ++ [')']) := by
    intro m hfmt hk
    simp only [hkid_ops_generate_hkid]
    rw [if_neg (by simp [hfmt])]
    have hknown : (m && !(HKIDPrefix.parse px).is_known) = false := by
      cases m
      · rfl
      · simp [hk rfl]
    rw [if_neg (by simp [hknown]), parse_as_str]
    exact (finish_hkid_ok px r hr hfmt).1
  refine ⟨?_, ?_, hfin_ok, ?_⟩
  · constructor
    · rintro ⟨e, he⟩
      by_contra hfmt'
      have hfmt : valid_prefix_fmt px = true := by
        cases hv : valid_prefix_fmt px
        · exact absurd hv hfmt'
        · rfl
      rw [hfin_ok false hfmt (by simp)] at he
      cases he
    · intro hfmt
      simp only [hkid_ops_generate_hkid]
      rw [if_pos (by simp [hfmt])]
      exact ⟨_, rfl⟩
  · constructor
    · rintro ⟨e, he⟩
      by_cases hfmt : valid_prefix_fmt px = true
      · by_cases hk : (HKIDPrefix.parse px).is_known = true
        · rw [hfin_ok true hfmt (fun _ => hk)] at he
          cases he
        · exact Or.inr (by cases h : (HKIDPrefix.parse px).is_known
                           · rfl
                           · exact absurd h hk)
      · exact Or.inl (by cases h : valid_prefix_fmt px
                         · rfl
                         · exact absurd h hfmt)
    · rintro (hfmt | hk)
      · simp only [hkid_ops_generate_hkid]
        rw [if_pos (by simp [hfmt])]
        exact ⟨_, rfl⟩
      · by_cases hfmt : valid_prefix_fmt px = true
        · simp only [hkid_ops_generate_hkid]
          rw [if_neg (by simp [hfmt]), if_pos (by simp [hk])]
          exact ⟨_, rfl⟩
        · have hfmt' : valid_prefix_fmt px = false := by
            cases h : valid_prefix_fmt px
            · rfl
            · exact absurd h hfmt
          simp only [hkid_ops_generate_hkid]
          rw [if_pos (by simp [hfmt'])]
          exact ⟨_, rfl⟩
  · have hgen : generate_hkid (some px) false r = finish_hkid px r := by
      simp only [generate_hkid]
      rw [parse_as_str]
    rw [hgen, finish_error_iff px r]
    constructor
    · intro hvb
      cases hl : valid_prefix_loose px
      · rfl
      · rw [(valid_body_append_iff px r.rand_digits hd6 hdd).mpr hl] at hvb
        cases hvb
    · intro hl
      cases hvb : valid_HKID_body (px ++ r.rand_digits)
      · rfl
      · rw [(valid_body_append_iff px r.rand_digits hd6 hdd).mp hvb] at hl
        cases hl

/-- C4 witness: the amended rules at the concrete prefix `"A"`, flag false,
digits `123456`: the HKIDOps generator succeeds with the prefix as-is. -/
theorem generate_prefix_format_rules_witness :
    hkid_ops_generate_hkid (some ("A".toList)) false
      ⟨0, ['A'], "123456".toList⟩ =
      .ok ("A".toList ++ "123456".toList ++ ['('] ++
        [spec_check_char ("A".toList ++ "123456".toList)] ++ [')']) :=
  (generate_prefix_format_rules ("A".toList) ⟨0, ['A'], "123456".toList⟩
    (by decide)).2.2.1 false (by decide) (by simp)

/-- C5: every string that is none of the 13 literal symbol codes, starts
with `'L'`, has length greater than 1, and whose remainder after the `'L'`
parses as an unsigned integer (the source's `u8` parse) is classified
`LostCard(n)`; in particular `parse("L2") = LostCard(2)`, and the
two-character digit-second rule gives
`parse("H1") = IssuingOfficeCode("H1")`. -/
theorem symbol_parse_lost_card :
    (∀ (s : List Char) (n : Nat), s ∉ symbolLiterals →
        s.head? = some 'L' → 1 < s.length → parse_u8 (s.drop 1) = some n →
        HKIDSymbol.parse s = .LostCard n) ∧
    HKIDSymbol.parse ("L2".toList) = .LostCard 2 ∧
    HKIDSymbol.parse ("H1".toList) = .IssuingOfficeCode ("H1".toList) := by
  refine ⟨fun s n hlit hL hlen hn => ?_, by decide, by decide⟩
  have g1 : s ≠ ['*', '*', '*'] := fun hEq => hlit (by rw [hEq]; decide)
  have g2 : s ≠ ['*'] := fun hEq => hlit (by rw [hEq]; decide)
  have g3 : s ≠ ['A'] := fun hEq => hlit (by rw [hEq]; decide)
  have g4 : s ≠ ['B'] := fun hEq => hlit (by rw [hEq]; decide)
  have g5 : s ≠ ['C'] := fun hEq => hlit (by rw [hEq]; decide)
  have g6 : s ≠ ['N'] := fun hEq => hlit (by rw [hEq]; decide)
  have g7 : s ≠ ['O'] := fun hEq => hlit (by rw [hEq]; decide)
  have g8 : s ≠ ['R'] := fun hEq => hlit (by rw [hEq]; decide)
  have g9 : s ≠ ['U'] := fun hEq => hlit (by rw [hEq]; decide)
  have g10 : s ≠ ['W'] := fun hEq => hlit (by rw [hEq]; decide)
  have g11 : s ≠ ['X'] := fun hEq => hlit (by rw [hEq]; decide)
  have g12 : s ≠ ['Y'] := fun hEq => hlit (by rw [hEq]; decide)
  have g13 : s ≠ ['Z'] := fun hEq => hlit (by rw [hEq]; decide)
  unfold HKIDSymbol.parse
  rw [if_neg g1, if_neg g2, if_neg g3, if_neg g4, if_neg g5, if_neg g6, if_neg g7, if_neg g8, if_neg g9, if_neg g10, if_neg g11, if_neg g12, if_neg g13, if_pos ⟨hL, hlen⟩, hn]

/-- C5 witness: the lost-card rule applied at the concrete symbol `"L7"`. -/
theorem symbol_parse_lost_card_witness :
    HKIDSymbol.parse ("L7".toList) = .LostCard 7 :=
  symbol_parse_lost_card.1 ("L7".toList) 7 (by decide) (by decide)
    (by decide) (by decide)

/-- C6: a check-digit mismatch is a normal negative result: whenever the
cleaned input matches the structural pattern and (when required) the prefix
is known, `validate_hkid` returns `Ok` of the comparison between the
recomputed and the provided check characters — `Ok(true)` on a match and
`Ok(false)` otherwise; in particular `validate_hkid("A123456(9)", false) =
Ok(false)` and `validate_hkid("XX123456(1)", true)` is the error naming the
prefix `"XX"`. -/
theorem validate_mismatch_semantics :
    (∀ (s : List Char) (m : Bool) (p d c : List Char),
        hkid_full_captures (strip_parens s) = some (p, d, c) →
        (m = true → (HKIDPrefix.parse p).is_known = true) →
        ∃ cal ch, calculate_check_digit (p ++ d) = some cal ∧ c = [ch] ∧
          validate_hkid s m = .ok (cal == ch)) ∧
    validate_hkid ("A123456(9)".toList) false = .ok false ∧
    validate_hkid ("XX123456(1)".toList) true =
      .error ("Prefix 'XX' is not recognized.".toList) :=
  ⟨validate_eq_of_captures, by decide, by decide⟩

/-- C7: `HKIDPrefix::parse` is total and classifies exactly the 30 listed
codes by exact case-sensitive match — `is_known(parse(s))` holds precisely
for the 30 code strings; every other string (including lowercase forms such
as `"a"`) parses to `Unknown` carrying the original text; and `is_known`
holds of a prefix exactly when it is not the `Unknown` variant. -/
theorem prefix_parse_classification :
    (∀ s : List Char,
        (HKIDPrefix.parse s).is_known = true ↔ s ∈ knownPrefixStrings) ∧
    (∀ s : List Char, s ∉ knownPrefixStrings →
        HKIDPrefix.parse s = .Unknown s) ∧
    (∀ p : HKIDPrefix, p.is_known = true ↔ ∀ t, p ≠ .Unknown t) ∧
    HKIDPrefix.parse ['a'] = .Unknown ['a'] :=
  ⟨parse_known_iff, parse_unknown_of_not_mem, is_known_iff_not_unknown,
    by decide⟩

/-- C7 witness: classification evaluated at the concrete strings `"EC"`
(known) and `"ZZ"` (unknown). -/
theorem prefix_parse_classification_witness :
    (HKIDPrefix.parse (['E', 'C'])).is_known = true ∧
    HKIDPrefix.parse ("ZZ".toList) = .Unknown ("ZZ".toList) :=
  ⟨(prefix_parse_classification.1 (['E', 'C'])).mpr (by decide),
    prefix_parse_classification.2.1 ("ZZ".toList) (by decide)⟩

/-- C8: the internal checksum-failure branch of the validator is
unreachable: whenever a cleaned string matches the full-HKID pattern, the
check digit of prefix-plus-digits always computes, and `validate_hkid`
never returns the "Failed to calculate check digit" error. -/
theorem checksum_failure_unreachable :
    (∀ s p d c : List Char, hkid_full_captures s = some (p, d, c) →
        (calculate_check_digit (p ++ d)).isSome = true) ∧
    (∀ (s : List Char) (m : Bool),
        validate_hkid s m ≠
          .error ("Failed to calculate check digit".toList)) := by
  have part1 : ∀ s p d c : List Char,
      hkid_full_captures s = some (p, d, c) →
      (calculate_check_digit (p ++ d)).isSome = true := by
    intro s p d c h
    obtain ⟨hp, hd6, hdd, _, _⟩ := captures_inv s p d c h
    rw [calculate_check_digit_of_valid _ (valid_body_append p d hp hd6 hdd)]
    rfl
  refine ⟨part1, fun s m => ?_⟩
  cases hcap : hkid_full_captures (strip_parens s) with
  | none =>
    simp only [validate_hkid, hcap]
    intro hEq
    exact absurd (Except.error.inj hEq) (by decide)
  | some t =>
    obtain ⟨p, d, c⟩ := t
    simp only [validate_hkid, hcap]
    by_cases hk : (m && !(HKIDPrefix.parse p).is_known) = true
    · rw [if_pos hk]
      intro hEq
      have hlist := Except.error.inj hEq
      have hhead := congrArg List.head? hlist
      simp at hhead
    · rw [if_neg hk]
      obtain ⟨hp, hd6, hdd, ⟨ch, rfl, hch⟩, _⟩ := captures_inv _ _ _ _ hcap
      rw [calculate_check_digit_of_valid _ (valid_body_append p d hp hd6 hdd)]
      simp

/-- C8 witness: the always-computable part at the concrete cleaned string
`"AB1234569"`. -/
theorem checksum_failure_unreachable_witness :
    (calculate_check_digit ("AB".toList ++ "123456".toList)).isSome = true :=
  checksum_failure_unreachable.1 ("AB1234569".toList) ("AB".toList)
    ("123456".toList) ['9'] (by decide)

/-- C9 counterexample: a string with parentheses in unexpected positions is
not rejected: the validator strips every parenthesis, so
`validate_hkid("A(123456)3", false)` returns `Ok(true)` rather than an
error. -/
theorem validate_boundary_counterexample :
    validate_hkid ("A(123456)3".toList) false = .ok true := by decide

/-- C9 (amended): the empty string and every lowercase-only string are
rejected by format matching with the structural error; strings containing
`'('` or `')'` anywhere, however, are treated exactly as their
paren-stripped form (the validator removes all parentheses before
matching), so misplaced parentheses alone never cause rejection. -/
theorem validate_boundary_rejection :
    (∀ m : Bool, validate_hkid [] m =
        .error ("Invalid HKID format: incorrect structure.".toList)) ∧
    (∀ (s : List Char) (m : Bool), s ≠ [] →
        (∀ c ∈ s, 97 ≤ c.toNat ∧ c.toNat ≤ 122) →
        validate_hkid s m =
          .error ("Invalid HKID format: incorrect structure.".toList)) ∧
    (∀ (s : List Char) (m : Bool),
        validate_hkid s m = validate_hkid (strip_parens s) m) := by
  refine ⟨fun m => by cases m <;> decide, ?_, ?_⟩
  · intro s m hne hlower
    have hclean : strip_parens s = s := by
      refine List.filter_eq_self.mpr fun c hc => ?_
      have hcl := hlower c hc
      simp only [Bool.and_eq_true, ne_eq, decide_eq_true_eq]
      constructor <;> rintro rfl <;> exact absurd hcl (by decide)
    have hcap : hkid_full_captures s = none := by
      obtain ⟨c0, rest, rfl⟩ : ∃ c0 rest, s = c0 :: rest := by
        cases s with
        | nil => exact absurd rfl hne
        | cons a l => exact ⟨a, l, rfl⟩
      have hc0 := hlower c0 (by simp)
      have hup : is_upper c0 = false := by
        simp only [is_upper, Bool.and_eq_false_iff, decide_eq_false_iff_not]
        omega
      unfold hkid_full_captures
      by_cases h8 : (c0 :: rest).length = 8
      · rw [if_pos h8, if_neg]
        simp [List.all_cons, hup]
      · rw [if_neg h8]
        by_cases h9 : (c0 :: rest).length = 9
        · rw [if_pos h9, if_neg]
          simp [List.all_cons, hup]
        · rw [if_neg h9]
    simp only [validate_hkid, hclean, hcap]
  · intro s m
    unfold validate_hkid
    rw [strip_parens_idem]

/-- C9 witness: the amended statement's lowercase clause at the concrete
string `"abc"`. -/
theorem validate_boundary_rejection_witness :
    validate_hkid ("abc".toList) false =
      .error ("Invalid HKID format: incorrect structure.".toList) :=
  validate_boundary_rejection.2.1 ("abc".toList) false (by decide) (by decide)

/-- C10: the string representation of a parsed prefix is exactly the
original input: `HKIDPrefix::parse(p).as_str() == p` for every string, both
for known variants (whose name equals the matched text) and for `Unknown`
(which stores the original text). -/
theorem prefix_parse_as_str_id (s : List Char) :
    (HKIDPrefix.parse s).as_str = s :=
  parse_as_str s

end HkidOps
